import Mathlib

/-!
Shallow embedding of pkg/queue/databusc/consumer.go (package databusc) and
proofs about its dispatcher, worker pool, commit policy and lifecycle loop.

Conventions:
* Go machine integers are modelled as Int, with the int32 conversions that
  appear in the source made explicit through toInt32.
* The kafka transport, logging and goroutine scheduling are external; the
  embedding keeps their observable effects (commit calls issued, log lines
  emitted, queue contents) as explicit data.
* The Consistent hash ring type lives elsewhere in the repository (not under
  src/), so it is modelled from the spec, as marked on its declarations.
-/

namespace Databusc

/-- Model of the Go int32 conversion used in SendToChannel: wrap an integer
into the interval from -2^31 to 2^31 - 1. -/
def toInt32 (n : Int) : Int := (n + 2147483648) % 4294967296 - 2147483648

/-- A kafka message as the consumer observes it: string form of the key
(string(msg.Key), empty when the key is absent), the partition and the offset
of TopicPartition. Both numeric fields are int32 in Go. -/
structure KafkaMessage where
  key : String
  partition : Int
  offset : Int
deriving DecidableEq, Repr

/-! ### Decimal printing and parsing

Models of the Go library calls used by the consumer: fmt.Sprintf with a %d
verb (NewConsumer, line 93) and strconv.Atoi (SendToChannel, line 129).
Printing is defined with explicit fuel so that every definition reduces in
the kernel. -/

/-- The decimal digit character for d, valid for d < 10. -/
def digitChar (d : Nat) : Char := Char.ofNat (48 + d)

/-- Auxiliary decimal printer; the first argument is fuel bounding the
number of division steps. -/
def natDigitsAux : Nat → Nat → List Char
  | 0, _ => []
  | fuel + 1, n =>
    if n < 10 then [digitChar n]
    else natDigitsAux fuel (n / 10) ++ [digitChar (n % 10)]

/-- Decimal digit string of a natural number, most significant digit first.
Fuel n + 1 always suffices because each step divides by 10. -/
def natDigits (n : Nat) : List Char := natDigitsAux (n + 1) n

/-- Model of fmt.Sprintf("%d", n) for a natural number n. -/
def sprintfNat (n : Nat) : String := String.mk (natDigits n)

/-- Whether a character is a decimal digit. -/
def isDigitChar (c : Char) : Bool := 48 ≤ c.toNat && c.toNat ≤ 57

/-- Numeric value of a list of digit characters, most significant first. -/
def digitsVal (l : List Char) : Nat :=
  l.foldl (fun acc c => acc * 10 + (c.toNat - 48)) 0

/-- Model of strconv.Atoi on the character list of the input: an optional
sign followed by at least one digit; anything else is a parse error. -/
def atoiChars : List Char → Option Int
  | [] => none
  | c :: rest =>
    if c = '-' then
      if !rest.isEmpty && rest.all isDigitChar then
        some (-(digitsVal rest : Int))
      else none
    else if c = '+' then
      if !rest.isEmpty && rest.all isDigitChar then
        some ((digitsVal rest : Int))
      else none
    else
      if (c :: rest).all isDigitChar then
        some ((digitsVal (c :: rest) : Int))
      else none

/-- Model of strconv.Atoi. -/
def atoi (s : String) : Option Int := atoiChars s.data

/-! ### The hash ring

Modelled from the spec: the Consistent type (New, Add, Get) is repository
code that is not under src/. The spec fixes its contract: Get is a
deterministic pure function of ring membership and key, returns an error
only when the ring has no members, and otherwise returns one of the member
identifiers. The concrete hash below is one such deterministic function. -/

/-- Modelled from the spec: the consistent hash ring state, reduced to its
member set (membership is static in this use, so virtual-node layout only
fixes which member a key maps to; any deterministic choice satisfies the
contract). -/
structure Consistent where
  members : List String
deriving DecidableEq, Repr

/-- Modelled from the spec: New() returns an empty ring. -/
def Consistent.New : Consistent := ⟨[]⟩

/-- Modelled from the spec: Add inserts a member identifier. -/
def Consistent.Add (c : Consistent) (elt : String) : Consistent :=
  ⟨c.members ++ [elt]⟩

/-- A deterministic string hash (31-based polynomial hash folded mod 2^32),
standing in for the ring hash. -/
def hashKey (s : String) : Nat :=
  s.data.foldl (fun h c => (h * 31 + c.toNat) % 4294967296) 2166136261

/-- Modelled from the spec: Get maps a key to one of the members,
deterministically; with no members the lookup fails (none, modelling the
error return). -/
def Consistent.Get (c : Consistent) (key : String) : Option String :=
  c.members[hashKey key % c.members.length]?

/-! ### Configuration and construction -/

/-- ConsumerParam (consumer.go lines 31-41). The Dealhanle field is the user
handler capability; it is modelled separately as the function argument of
the worker model, since the consumer only invokes it and never stores
anything into it or compares it. -/
structure ConsumerParam where
  address : String
  groupId : String
  topic : String
  consumerMode : Int
  autoCommitMode : Int
  threadNum : Int
deriving DecidableEq, Repr

/-- A value stored in the kafka ConfigMap (Go interface values: strings,
integers and booleans are the kinds NewConsumer stores). -/
inductive ConfigValue where
  | s : String → ConfigValue
  | i : Int → ConfigValue
  | b : Bool → ConfigValue
deriving DecidableEq, Repr

/-- The ConfigMap entries NewConsumer writes (consumer.go lines 59-72), in
source order. The client.id value is built from wall time and pid, which are
environment inputs; the model takes the formatted string as the clientId
argument. -/
def buildConfig (param : ConsumerParam) (clientId : String) :
    List (String × ConfigValue) :=
  [("bootstrap.servers", ConfigValue.s param.address),
   ("broker.address.family", ConfigValue.s "v4"),
   ("group.id", ConfigValue.s param.groupId),
   ("session.timeout.ms", ConfigValue.i 6000),
   ("client.id", ConfigValue.s clientId),
   ("auto.offset.reset", ConfigValue.s "latest"),
   ("enable.auto.commit", ConfigValue.b true),
   ("enable.auto.offset.store", ConfigValue.b true),
   ("socket.keepalive.enable", ConfigValue.b true),
   ("go.events.channel.enable", ConfigValue.b true),
   ("enable.partition.eof", ConfigValue.b true)]

/-- The ThreadNum default (consumer.go lines 87-89): handle.param stores the
pointer the caller passed, and the assignment handle.param.ThreadNum = 51
writes through that pointer, so this is also the state of the callers
ConsumerParam after NewConsumer returns. -/
def effectiveParam (param : ConsumerParam) : ConsumerParam :=
  if param.threadNum ≤ 0 then { param with threadNum := 51 } else param

/-- The callers ConsumerParam struct after NewConsumer returns: Go structs
are shared by pointer, and NewConsumer writes the ThreadNum default through
the shared pointer. -/
def callerParamAfterNew (param : ConsumerParam) : ConsumerParam :=
  effectiveParam param

/-- The ring NewConsumer builds (consumer.go lines 91-95): starting from
New(), Add(fmt.Sprintf("%d", i)) for i from 0 to ThreadNum - 1. -/
def ringOf (threadNum : Int) : Consistent :=
  (List.range threadNum.toNat).foldl
    (fun c i => c.Add (sprintfNat i)) Consistent.New

/-- The consumer state NewConsumer returns (consumer.go lines 54-120),
keeping the observable data: the close flag, the (shared, defaulted) param,
the ConfigMap, the ring and the per-worker queue capacities
(make(chan *kafka.Message, 2) for each of ThreadNum queues). -/
structure ConsumerState where
  isclose : Bool
  param : ConsumerParam
  config : List (String × ConfigValue)
  sis : Consistent
  queueCaps : List Nat
deriving DecidableEq, Repr

/-- NewConsumer (consumer.go lines 54-120), with the transport handle and
goroutine spawning external to the model. -/
def newConsumer (param : ConsumerParam) (clientId : String) : ConsumerState :=
  let p := effectiveParam param
  { isclose := false
    param := p
    config := buildConfig param clientId
    sis := ringOf p.threadNum
    queueCaps := List.replicate p.threadNum.toNat 2 }

/-! ### The dispatcher -/

/-- The destination queue index SendToChannel computes (consumer.go lines
122-141): for a non-empty key, look the key up in the ring and use the
result when strconv.Atoi parses it (converted to int32); otherwise
(empty key, ring error, or parse error) fall back to
partition % int32(ThreadNum), with the truncated Go remainder. -/
def sendToChannelIndex (sis : Consistent) (threadNum : Int)
    (msg : KafkaMessage) : Int :=
  let keyed : Option Int :=
    if msg.key ≠ "" then
      match sis.Get msg.key with
      | some modstr =>
        match atoi modstr with
        | some convstr => some (toInt32 convstr)
        | none => none
      | none => none
    else none
  match keyed with
  | some m => m
  | none => Int.tmod msg.partition (toInt32 threadNum)

/-- A commit call issued to the transport. -/
inductive CommitAction where
  | commit : CommitAction
  | commitMessage : KafkaMessage → CommitAction
deriving DecidableEq, Repr

/-- The commit policy part of SendToChannel (consumer.go lines 142-151):
the list of commit calls issued for this message, and the value of the
callee-local index parameter at return. Go passes index by value, so the
second component is discarded by the caller. -/
def sendToChannelCommit (autoCommitMode : Int) (msg : KafkaMessage)
    (index : Int) : List CommitAction × Int :=
  if autoCommitMode = 0 then
    if index > 1000 then ([CommitAction.commit], 0 + 1)
    else ([], index + 1)
  else if autoCommitMode = 1 then
    ([CommitAction.commitMessage msg], index)
  else ([], index)

/-- The commit calls issued by one run of the Start loop (consumer.go lines
171-227) that dispatches msgs and then observes the close flag: Start sets
index := 0 and calls SendToChannel(e, index) for each data event; index is
passed by value and Start never assigns it again, so every call receives 0.
After the loop, a final Commit() is issued unless AutoCommitMode is 1. -/
def startLoopActions (param : ConsumerParam) (msgs : List KafkaMessage) :
    List CommitAction :=
  let index : Int := 0
  (msgs.foldl
    (fun acc msg => acc ++ (sendToChannelCommit param.autoCommitMode msg index).1)
    []) ++
  (if param.autoCommitMode ≠ 1 then [CommitAction.commit] else [])

/-- One enqueue (queuelist[mod] <- msg) on the family of worker queues,
keyed by queue index. -/
def enqueue (queues : Int → List KafkaMessage) (i : Int) (msg : KafkaMessage) :
    Int → List KafkaMessage :=
  fun w => if w = i then queues w ++ [msg] else queues w

/-- Dispatch a whole arrival sequence: each message is enqueued on the queue
SendToChannel selects for it, in arrival order; the result maps a queue
index to the queue contents (the order the worker receives). -/
def dispatchAll (sis : Consistent) (threadNum : Int)
    (msgs : List KafkaMessage) : Int → List KafkaMessage :=
  msgs.foldl
    (fun qs msg => enqueue qs (sendToChannelIndex sis threadNum msg) msg)
    (fun _ => [])

/-! ### The worker pool -/

/-- Outcome of one DealMessage invocation: a nil error, a non-nil error, or
an unexpected fault (a Go panic) unwinding out of the handler. -/
inductive DealResult where
  | ok : DealResult
  | fail : DealResult
  | panicked : DealResult
deriving DecidableEq, Repr

/-- A log line emitted by a worker goroutine. The worker body (consumer.go
lines 100-116) contains exactly two log calls: the deferred recover logs
"deal chan exception" and queue closure logs "deal chan is close". -/
inductive WorkerLog where
  | dealException : Int → WorkerLog
  | chanClosed : Int → WorkerLog
deriving DecidableEq, Repr

/-- One worker goroutine (consumer.go lines 100-116) run over the contents
of its queue (the queue is closed after the given messages). Returns the
messages whose DealMessage invocation started, in invocation order, and the
log lines emitted. The returned error of DealMessage is discarded and the
loop continues; a panic unwinds the for loop to the deferred recover at the
goroutine boundary, which logs and then lets the goroutine return, so
nothing after the faulting message is processed. -/
def workerRun (deal : KafkaMessage → DealResult) (index : Int) :
    List KafkaMessage → List KafkaMessage × List WorkerLog
  | [] => ([], [WorkerLog.chanClosed index])
  | msg :: rest =>
    if deal msg = DealResult.panicked then
      ([msg], [WorkerLog.dealException index])
    else
      let r := workerRun deal index rest
      (msg :: r.1, r.2)

/-! ### The poll loop phases -/

/-- Control phase of the Start goroutine (consumer.go lines 153-230): the
subscription retry loop (lines 161-169), the main poll loop (lines
173-219), and completion. -/
inductive LoopPhase where
  | subscribing : LoopPhase
  | running : LoopPhase
  | done : LoopPhase
deriving DecidableEq, Repr

/-- One iteration of the Start goroutine control flow. subscribeOk is
whether the SubscribeTopics attempt of this iteration succeeds; isclose is
the close flag at this iteration. The subscription retry loop (lines
161-169) repeats until success and does not read the close flag; the main
loop checks the close flag at the top of each iteration (line 173). In
event-channel mode the exit signal case only leaves the select, after which
the same line 173 check runs, and Close sets the flag before sending the
signal, so the flag check models both modes. -/
def loopStep (subscribeOk isclose : Bool) : LoopPhase → LoopPhase
  | LoopPhase.subscribing =>
    if subscribeOk then LoopPhase.running else LoopPhase.subscribing
  | LoopPhase.running =>
    if isclose then LoopPhase.done else LoopPhase.running
  | LoopPhase.done => LoopPhase.done

/-! ### Helper lemmas: decimal printing and parsing -/

theorem digitChar_toNat : ∀ d, d < 10 → (digitChar d).toNat = 48 + d := by
  decide

theorem isDigitChar_digitChar : ∀ d, d < 10 → isDigitChar (digitChar d) = true := by
  decide

theorem digitsVal_append (l : List Char) (c : Char) :
    digitsVal (l ++ [c]) = digitsVal l * 10 + (c.toNat - 48) := by
  simp [digitsVal, List.foldl_append]

theorem natDigitsAux_val :
    ∀ fuel n, n < fuel → digitsVal (natDigitsAux fuel n) = n := by
  intro fuel
  induction fuel with
  | zero => intro n h; exact absurd h (Nat.not_lt_zero n)
  | succ fuel ih =>
    intro n h
    rw [natDigitsAux]
    by_cases h10 : n < 10
    · rw [if_pos h10]
      have hd := digitChar_toNat n h10
      simp [digitsVal]
      omega
    · rw [if_neg h10]
      rw [digitsVal_append, ih (n / 10) (by omega)]
      have hd := digitChar_toNat (n % 10) (Nat.mod_lt n (by norm_num))
      omega

theorem natDigitsAux_all :
    ∀ fuel n, n < fuel → (natDigitsAux fuel n).all isDigitChar = true := by
  intro fuel
  induction fuel with
  | zero => intro n h; exact absurd h (Nat.not_lt_zero n)
  | succ fuel ih =>
    intro n h
    rw [natDigitsAux]
    by_cases h10 : n < 10
    · rw [if_pos h10]
      simp [isDigitChar_digitChar n h10]
    · rw [if_neg h10]
      rw [List.all_append]
      simp [ih (n / 10) (by omega),
        isDigitChar_digitChar (n % 10) (Nat.mod_lt n (by norm_num))]

theorem natDigitsAux_ne_nil :
    ∀ fuel n, n < fuel → natDigitsAux fuel n ≠ [] := by
  intro fuel
  induction fuel with
  | zero => intro n h; exact absurd h (Nat.not_lt_zero n)
  | succ fuel _ =>
    intro n _
    rw [natDigitsAux]
    by_cases h10 : n < 10
    · rw [if_pos h10]; simp
    · rw [if_neg h10]; simp

theorem digitsVal_natDigits (n : Nat) : digitsVal (natDigits n) = n :=
  natDigitsAux_val (n + 1) n (Nat.lt_succ_self n)

theorem natDigits_all (n : Nat) : (natDigits n).all isDigitChar = true :=
  natDigitsAux_all (n + 1) n (Nat.lt_succ_self n)

theorem natDigits_ne_nil (n : Nat) : natDigits n ≠ [] :=
  natDigitsAux_ne_nil (n + 1) n (Nat.lt_succ_self n)

theorem digit_not_sign (c : Char) (h : isDigitChar c = true) :
    c ≠ '-' ∧ c ≠ '+' := by
  constructor <;> rintro rfl <;> exact absurd h (by decide)

theorem atoi_sprintfNat (n : Nat) : atoi (sprintfNat n) = some (n : Int) := by
  have hdata : (sprintfNat n).data = natDigits n := rfl
  rw [atoi, hdata]
  obtain ⟨c, rest, hcr⟩ : ∃ c rest, natDigits n = c :: rest := by
    cases h : natDigits n with
    | nil => exact absurd h (natDigits_ne_nil n)
    | cons c rest => exact ⟨c, rest, rfl⟩
  have hall : (c :: rest).all isDigitChar = true := hcr ▸ natDigits_all n
  have hc : isDigitChar c = true := by
    rw [List.all_cons, Bool.and_eq_true] at hall
    exact hall.1
  obtain ⟨hm, hp⟩ := digit_not_sign c hc
  rw [hcr, atoiChars, if_neg hm, if_neg hp,
    if_pos (hcr ▸ natDigits_all n), ← hcr, digitsVal_natDigits]

/-! ### Helper lemmas: the ring built by NewConsumer -/

theorem foldl_add_members (l : List Nat) (c : Consistent) :
    (l.foldl (fun c i => c.Add (sprintfNat i)) c).members
      = c.members ++ l.map sprintfNat := by
  induction l generalizing c with
  | nil => simp
  | cons x xs ih =>
    rw [List.foldl_cons, ih]
    simp [Consistent.Add]

theorem ringOf_members (tn : Int) :
    (ringOf tn).members = (List.range tn.toNat).map sprintfNat := by
  rw [ringOf, foldl_add_members]
  rfl

theorem ringOf_get (tn : Int) (key : String) (h : 0 < tn.toNat) :
    (ringOf tn).Get key = some (sprintfNat (hashKey key % tn.toNat)) := by
  rw [Consistent.Get, ringOf_members]
  have hlen : ((List.range tn.toNat).map sprintfNat).length = tn.toNat := by
    simp
  rw [hlen]
  have hidx : hashKey key % tn.toNat < tn.toNat := Nat.mod_lt _ h
  rw [List.getElem?_eq_getElem (by rw [hlen]; exact hidx)]
  rw [List.getElem_map, List.getElem_range]

/-! ### Helper lemmas: the dispatcher index -/

theorem toInt32_of_lt (n : Int) (h0 : 0 ≤ n) (h : n < 2147483648) :
    toInt32 n = n := by
  rw [toInt32, Int.emod_eq_of_lt (by omega) (by omega)]
  omega

theorem sendToChannelIndex_keyed (n : Int) (msg : KafkaMessage)
    (hn : 0 < n) (h32 : n < 2147483648) (hkey : msg.key ≠ "") :
    sendToChannelIndex (ringOf n) n msg
      = ((hashKey msg.key % n.toNat : Nat) : Int) := by
  have hnt : 0 < n.toNat := by omega
  have hget := ringOf_get n msg.key hnt
  have hatoi := atoi_sprintfNat (hashKey msg.key % n.toNat)
  have hlt : ((hashKey msg.key % n.toNat : Nat) : Int) < n := by
    have := Nat.mod_lt (hashKey msg.key) hnt
    omega
  rw [sendToChannelIndex]
  simp only [hkey, if_pos, hget, hatoi, ne_eq, not_false_iff, if_true]
  exact toInt32_of_lt _ (Int.ofNat_nonneg _) (by omega)

theorem sendToChannelIndex_keyed_lt (n : Int) (msg : KafkaMessage)
    (hn : 0 < n) (h32 : n < 2147483648) (hkey : msg.key ≠ "") :
    0 ≤ sendToChannelIndex (ringOf n) n msg ∧
      sendToChannelIndex (ringOf n) n msg < n := by
  rw [sendToChannelIndex_keyed n msg hn h32 hkey]
  have hnt : 0 < n.toNat := by omega
  have := Nat.mod_lt (hashKey msg.key) hnt
  constructor
  · exact Int.ofNat_nonneg _
  · omega

theorem sendToChannelIndex_keyless (sis : Consistent) (n : Int)
    (msg : KafkaMessage) (hkey : msg.key = "") :
    sendToChannelIndex sis n msg = Int.tmod msg.partition (toInt32 n) := by
  simp [sendToChannelIndex, hkey]

theorem tmod_toInt32_eq_emod (p n : Int) (hn : 0 < n) (h32 : n < 2147483648)
    (hp : 0 ≤ p) : Int.tmod p (toInt32 n) = p % n := by
  rw [toInt32_of_lt n (by omega) h32, Int.tmod_eq_emod hp (by omega)]

/-! ### Helper lemmas: dispatch queues and workers -/

theorem enqueue_same (qs : Int → List KafkaMessage) (i : Int)
    (m : KafkaMessage) : enqueue qs i m i = qs i ++ [m] := by
  simp [enqueue]

theorem enqueue_other (qs : Int → List KafkaMessage) (i : Int)
    (m : KafkaMessage) (w : Int) (h : w ≠ i) : enqueue qs i m w = qs w := by
  simp [enqueue, h]

theorem foldl_enqueue (sis : Consistent) (n : Int) (msgs : List KafkaMessage)
    (qs : Int → List KafkaMessage) (w : Int) :
    (msgs.foldl
        (fun qs msg => enqueue qs (sendToChannelIndex sis n msg) msg) qs) w
      = qs w ++ msgs.filter (fun m => sendToChannelIndex sis n m == w) := by
  induction msgs generalizing qs with
  | nil => simp
  | cons m rest ih =>
    rw [List.foldl_cons, ih, List.filter_cons]
    by_cases h : sendToChannelIndex sis n m = w
    · have hb : (sendToChannelIndex sis n m == w) = true := by simpa using h
      rw [hb, if_pos rfl, ← h, enqueue_same]
      simp
    · have hb : (sendToChannelIndex sis n m == w) = false := by simpa using h
      rw [hb, enqueue_other qs _ m w (fun hw => h hw.symm)]
      simp

theorem dispatchAll_apply (sis : Consistent) (n : Int)
    (msgs : List KafkaMessage) (w : Int) :
    dispatchAll sis n msgs w
      = msgs.filter (fun m => sendToChannelIndex sis n m == w) := by
  rw [dispatchAll, foldl_enqueue]
  rfl

theorem workerRun_no_panic (deal : KafkaMessage → DealResult) (index : Int) :
    ∀ q : List KafkaMessage, (∀ m ∈ q, deal m ≠ DealResult.panicked) →
      workerRun deal index q = (q, [WorkerLog.chanClosed index]) := by
  intro q
  induction q with
  | nil => intro _; rfl
  | cons m rest ih =>
    intro h
    have hm : deal m ≠ DealResult.panicked := h m (by simp)
    have hrest := ih (fun x hx => h x (by simp [hx]))
    rw [workerRun, if_neg hm, hrest]

theorem workerRun_panic_stops (deal : KafkaMessage → DealResult) (index : Int) :
    ∀ (pre : List KafkaMessage) (m : KafkaMessage) (rest : List KafkaMessage),
      (∀ x ∈ pre, deal x ≠ DealResult.panicked) →
      deal m = DealResult.panicked →
      workerRun deal index (pre ++ m :: rest)
        = (pre ++ [m], [WorkerLog.dealException index]) := by
  intro pre
  induction pre with
  | nil =>
    intro m rest _ hm
    rw [List.nil_append, workerRun, if_pos hm]
    rfl
  | cons x xs ih =>
    intro m rest hpre hm
    have hx : deal x ≠ DealResult.panicked := hpre x (by simp)
    rw [List.cons_append, workerRun, if_neg hx,
      ih m rest (fun y hy => hpre y (by simp [hy])) hm]
    simp

theorem foldl_no_action (f : List CommitAction → KafkaMessage → List CommitAction)
    (hf : ∀ acc m, f acc m = acc) :
    ∀ (msgs : List KafkaMessage) (acc : List CommitAction),
      msgs.foldl f acc = acc := by
  intro msgs
  induction msgs with
  | nil => intro acc; rfl
  | cons m rest ih => intro acc; rw [List.foldl_cons, hf, ih]

/-! ### Concrete fixtures used by witnesses and counterexamples -/

/-- A configuration with four workers, poll mode, batched-manual commits. -/
def paramA : ConsumerParam :=
  ⟨"127.0.0.1:9092", "group-1", "topic-1", 0, 0, 4⟩

/-- A configuration whose ThreadNum is left at zero. -/
def paramZeroThreads : ConsumerParam :=
  ⟨"127.0.0.1:9092", "group-1", "topic-1", 0, 0, 0⟩

/-- A keyless message on partition 6. -/
def msgNoKey : KafkaMessage := ⟨"", 6, 0⟩

/-- A keyed message. -/
def msgA : KafkaMessage := ⟨"user-42", 0, 10⟩

/-- A second message with the same key as msgA, different partition. -/
def msgB : KafkaMessage := ⟨"user-42", 3, 11⟩

/-- A message with a different key. -/
def msgC : KafkaMessage := ⟨"other", 1, 12⟩

/-! ### Claims -/

/-- C5 counterexample: with the close flag already set, the Start goroutine
stuck in the subscription retry loop (SubscribeTopics failing each attempt)
makes no progress at all: after a million iterations it is still in the
subscription phase and has not exited, because the retry loop (consumer.go
lines 161-169) never reads the isclose flag. Hence Close(), which waits on
the WaitGroup the goroutine signals only on exit, does not return. -/
theorem c5_counterexample :
    (loopStep false true)^[1000000] LoopPhase.subscribing ≠ LoopPhase.done ∧
    loopStep false true LoopPhase.subscribing = LoopPhase.subscribing := by
  have hfix : loopStep false true LoopPhase.subscribing
      = LoopPhase.subscribing := rfl
  constructor
  · rw [Function.iterate_fixed hfix 1000000]
    decide
  · exact hfix

/-- C5 (amended): once the loop has passed subscription, setting the close
flag makes the running loop exit at its next iteration check, for either
subscription outcome; but while the loop is still retrying subscription the
close flag is not consulted: a failing subscription attempt leaves the loop
in the subscription phase whatever the flag, and only a successful attempt
moves it on. -/
theorem c5_close_terminates_amended (subscribeOk isclose : Bool) :
    loopStep subscribeOk true LoopPhase.running = LoopPhase.done ∧
    loopStep true isclose LoopPhase.subscribing = LoopPhase.running ∧
    loopStep false isclose LoopPhase.subscribing = LoopPhase.subscribing ∧
    loopStep subscribeOk isclose LoopPhase.done = LoopPhase.done :=
  ⟨rfl, rfl, rfl, rfl⟩

/-- C6: a keyless message with non-negative partition p under worker count
n > 0 is routed to worker p mod n; in particular with four workers the
partitions 0,1,2,3,0,1,2,3 are assigned to workers 0,1,2,3,0,1,2,3 in
order. Stated for an arbitrary ring, since the empty-key path never
consults it. -/
theorem c6_keyless_partition_mod (sis : Consistent) (n p off : Int)
    (hn : 0 < n) (h32 : n < 2147483648) (hp : 0 ≤ p) :
    sendToChannelIndex sis n ⟨"", p, off⟩ = p % n ∧
    List.map (fun q => sendToChannelIndex sis 4 ⟨"", q, 0⟩)
        [0, 1, 2, 3, 0, 1, 2, 3] = [0, 1, 2, 3, 0, 1, 2, 3] := by
  constructor
  · rw [sendToChannelIndex_keyless sis n ⟨"", p, off⟩ rfl,
      tmod_toInt32_eq_emod p n hn h32 hp]
  · have h04 : ∀ q : Int, 0 ≤ q → q < 4 →
        sendToChannelIndex sis 4 ⟨"", q, 0⟩ = q := by
      intro q h1 h2
      rw [sendToChannelIndex_keyless sis 4 ⟨"", q, 0⟩ rfl,
        tmod_toInt32_eq_emod q 4 (by norm_num) (by norm_num) h1,
        Int.emod_eq_of_lt h1 h2]
    simp only [List.map_cons, List.map_nil]
    rw [h04 0 (by norm_num) (by norm_num), h04 1 (by norm_num) (by norm_num),
      h04 2 (by norm_num) (by norm_num), h04 3 (by norm_num) (by norm_num)]

/-- C6 witness: at worker count 4 and partition 6 the keyless message goes
to worker 6 mod 4 = 2. -/
theorem c6_keyless_partition_mod_witness :
    (0 : Int) < 4 ∧ (4 : Int) < 2147483648 ∧ (0 : Int) ≤ 6 ∧
    sendToChannelIndex Consistent.New 4 ⟨"", 6, 0⟩ = 6 % 4 :=
  ⟨by norm_num, by norm_num, by norm_num,
    (c6_keyless_partition_mod Consistent.New 4 6 0 (by norm_num) (by norm_num)
      (by norm_num)).1⟩

/-- C7: with ThreadNum unset or non-positive, NewConsumer uses exactly 51
workers: the ring gets the 51 members printed from 0 to 50 and 51 queues of
capacity 2 are made; with a positive ThreadNum, exactly that many members
and queues, again each of capacity 2. -/
theorem c7_default_worker_count (param : ConsumerParam) (clientId : String) :
    (param.threadNum ≤ 0 →
      (newConsumer param clientId).sis.members
          = (List.range 51).map sprintfNat ∧
      (newConsumer param clientId).sis.members.length = 51 ∧
      (newConsumer param clientId).queueCaps = List.replicate 51 2) ∧
    (0 < param.threadNum →
      (newConsumer param clientId).sis.members
          = (List.range param.threadNum.toNat).map sprintfNat ∧
      (newConsumer param clientId).sis.members.length
          = param.threadNum.toNat ∧
      (newConsumer param clientId).queueCaps
          = List.replicate param.threadNum.toNat 2) := by
  constructor
  · intro h
    have he : (effectiveParam param).threadNum = 51 := by
      rw [effectiveParam, if_pos h]
    refine ⟨?_, ?_, ?_⟩
    · show (ringOf (effectiveParam param).threadNum).members = _
      rw [he, ringOf_members]
      rfl
    · show (ringOf (effectiveParam param).threadNum).members.length = 51
      rw [he, ringOf_members]
      simp
    · show List.replicate (effectiveParam param).threadNum.toNat 2 = _
      rw [he]
      rfl
  · intro h
    have he : (effectiveParam param).threadNum = param.threadNum := by
      rw [effectiveParam, if_neg (by omega)]
    refine ⟨?_, ?_, ?_⟩
    · show (ringOf (effectiveParam param).threadNum).members = _
      rw [he, ringOf_members]
    · show (ringOf (effectiveParam param).threadNum).members.length = _
      rw [he, ringOf_members]
      simp
    · show List.replicate (effectiveParam param).threadNum.toNat 2 = _
      rw [he]

/-- C7 witness: at ThreadNum 0 the constructed consumer has the 51 ring
members printed from 0 to 50 and 51 queues of capacity 2. -/
theorem c7_default_worker_count_witness :
    (newConsumer paramZeroThreads "cid").sis.members
        = (List.range 51).map sprintfNat ∧
    (newConsumer paramZeroThreads "cid").sis.members.length = 51 ∧
    (newConsumer paramZeroThreads "cid").queueCaps = List.replicate 51 2 :=
  (c7_default_worker_count paramZeroThreads "cid").1 (by decide)

/-- C8 counterexample: NewConsumer mutates the caller-supplied
ConsumerParam. With ThreadNum 0, the struct the caller passed has
ThreadNum 51 after construction (handle.param holds the caller pointer and
line 88 assigns through it), so the configuration object is not left
unmodified. -/
theorem c8_counterexample :
    callerParamAfterNew paramZeroThreads ≠ paramZeroThreads ∧
    (callerParamAfterNew paramZeroThreads).threadNum = 51 ∧
    paramZeroThreads.threadNum = 0 := by
  refine ⟨by decide, by decide, by decide⟩

/-- C8 (amended): NewConsumer writes the callers ConsumerParam only in one
case: a non-positive ThreadNum is overwritten with 51 through the shared
pointer. A positive ThreadNum leaves the struct untouched, and every field
other than ThreadNum is preserved in all cases. -/
theorem c8_param_mutation_amended (param : ConsumerParam) :
    (0 < param.threadNum → callerParamAfterNew param = param) ∧
    (param.threadNum ≤ 0 → (callerParamAfterNew param).threadNum = 51) ∧
    (callerParamAfterNew param).address = param.address ∧
    (callerParamAfterNew param).groupId = param.groupId ∧
    (callerParamAfterNew param).topic = param.topic ∧
    (callerParamAfterNew param).consumerMode = param.consumerMode ∧
    (callerParamAfterNew param).autoCommitMode = param.autoCommitMode := by
  rw [callerParamAfterNew, effectiveParam]
  by_cases h : param.threadNum ≤ 0
  · rw [if_pos h]
    exact ⟨fun h2 => absurd h (by omega), fun _ => rfl, rfl, rfl, rfl, rfl, rfl⟩
  · rw [if_neg h]
    exact ⟨fun _ => rfl, fun h2 => absurd h2 h, rfl, rfl, rfl, rfl, rfl⟩

/-- C8 witness: with a positive ThreadNum (4) the callers struct is
unchanged by construction. -/
theorem c8_param_mutation_amended_witness :
    callerParamAfterNew paramA = paramA :=
  (c8_param_mutation_amended paramA).1 (by decide)

/-- C10: NewConsumer unconditionally stores true under enable.auto.commit
and enable.auto.offset.store in the transport ConfigMap, for every
configuration, in particular whatever AutoCommitMode the caller selected,
so the transport background auto-commit is active in modes 0 and 1 too. -/
theorem c10_auto_commit_always_true (param : ConsumerParam)
    (clientId : String) :
    List.lookup "enable.auto.commit" (buildConfig param clientId)
        = some (ConfigValue.b true) ∧
    List.lookup "enable.auto.offset.store" (buildConfig param clientId)
        = some (ConfigValue.b true) := by
  constructor <;> rfl

/-- C1: under batched-manual mode (AutoCommitMode 0), a full run of the
Start loop issues exactly one bulk Commit call in total, whatever the
number of dispatched messages: the counter is passed to SendToChannel by
value, the caller never updates its own index, so the in-loop threshold
commit never fires, and only the final commit at loop exit happens. This
contradicts the stated one-bulk-commit-per-1000-messages behaviour, which
the increment-check-reset code in SendToChannel clearly intends. -/
theorem c1_mode0_commits_once (param : ConsumerParam)
    (msgs : List KafkaMessage) (h : param.autoCommitMode = 0) :
    List.count CommitAction.commit (startLoopActions param msgs) = 1 := by
  simp only [startLoopActions]
  have hstep : ∀ (acc : List CommitAction) (m : KafkaMessage),
      acc ++ (sendToChannelCommit param.autoCommitMode m 0).1 = acc := by
    intro acc m
    rw [h]
    simp [sendToChannelCommit]
  rw [foldl_no_action _ hstep msgs [], h]
  decide

/-- C1 witness: a run of 2000 dispatched messages under mode 0 still
produces exactly one bulk commit (not the two the claim would demand). -/
theorem c1_mode0_commits_once_witness :
    paramA.autoCommitMode = 0 ∧
    List.count CommitAction.commit
        (startLoopActions paramA (List.replicate 2000 msgNoKey)) = 1 :=
  ⟨rfl, c1_mode0_commits_once paramA (List.replicate 2000 msgNoKey) rfl⟩

/-- C3: for every message dispatched against the ring NewConsumer builds
(members printed from 0 to ThreadNum - 1), the chosen queue index is in
bounds; whenever the dispatcher uses the ring result it is a non-negative
integer below the worker count (because the ring only holds such members:
the code itself performs no range check), and for an empty key the index is
partition mod worker count. -/
theorem c3_index_in_bounds (n : Int) (msg : KafkaMessage)
    (hn : 0 < n) (h32 : n < 2147483648) (hp : 0 ≤ msg.partition) :
    (0 ≤ sendToChannelIndex (ringOf n) n msg ∧
      sendToChannelIndex (ringOf n) n msg < n) ∧
    (∀ s v, msg.key ≠ "" → (ringOf n).Get msg.key = some s →
      atoi s = some v →
      sendToChannelIndex (ringOf n) n msg = v ∧ 0 ≤ v ∧ v < n) ∧
    (msg.key = "" →
      sendToChannelIndex (ringOf n) n msg = msg.partition % n) := by
  by_cases hkey : msg.key = ""
  · have hv := sendToChannelIndex_keyless (ringOf n) n msg hkey
    have he := tmod_toInt32_eq_emod msg.partition n hn h32 hp
    refine ⟨?_, ?_, fun _ => by rw [hv, he]⟩
    · rw [hv, he]
      exact ⟨Int.emod_nonneg _ (by omega), Int.emod_lt_of_pos _ hn⟩
    · intro s v hne _ _
      exact absurd hkey hne
  · have hb := sendToChannelIndex_keyed_lt n msg hn h32 hkey
    refine ⟨hb, ?_, fun he => absurd he hkey⟩
    intro s v _ hget hatoi
    have hnt : 0 < n.toNat := by omega
    rw [ringOf_get n msg.key hnt] at hget
    have hs : s = sprintfNat (hashKey msg.key % n.toNat) := by
      injection hget with hh
      exact hh.symm
    rw [hs, atoi_sprintfNat] at hatoi
    have hv : v = ((hashKey msg.key % n.toNat : Nat) : Int) := by
      injection hatoi with hh
      exact hh.symm
    rw [hv]
    refine ⟨sendToChannelIndex_keyed n msg hn h32 hkey,
      Int.ofNat_nonneg _, ?_⟩
    have := Nat.mod_lt (hashKey msg.key) hnt
    omega

/-- C3 witness: with four workers and the keyed message msgA the index is
in bounds. -/
theorem c3_index_in_bounds_witness :
    (0 : Int) < 4 ∧ (0 : Int) ≤ msgA.partition ∧
    (0 ≤ sendToChannelIndex (ringOf 4) 4 msgA ∧
      sendToChannelIndex (ringOf 4) 4 msgA < 4) :=
  ⟨by norm_num, by decide,
    (c3_index_in_bounds 4 msgA (by norm_num) (by norm_num) (by decide)).1⟩

/-- C2: two messages b and a carrying the same non-empty key resolve to
the same worker index, and in any arrival sequence xs, a, ys, b, zs the
worker owning that index invokes the handler on exactly the subsequence of
arrivals routed to it, in arrival order: a strictly before b, with only
same-queue messages interleaved in their own arrival order (the handler
here is any handler that does not fault). -/
theorem c2_same_key_fifo (n : Int) (xs ys zs : List KafkaMessage)
    (a b : KafkaMessage) (deal : KafkaMessage → DealResult)
    (hn : 0 < n) (h32 : n < 2147483648)
    (hkey : b.key = a.key) (hne : a.key ≠ "")
    (hdeal : ∀ m, deal m ≠ DealResult.panicked) :
    sendToChannelIndex (ringOf n) n b = sendToChannelIndex (ringOf n) n a ∧
    (workerRun deal (sendToChannelIndex (ringOf n) n a)
        (dispatchAll (ringOf n) n (xs ++ a :: (ys ++ b :: zs))
          (sendToChannelIndex (ringOf n) n a))).1
      = xs.filter (fun m => sendToChannelIndex (ringOf n) n m
            == sendToChannelIndex (ringOf n) n a)
        ++ a :: (ys.filter (fun m => sendToChannelIndex (ringOf n) n m
            == sendToChannelIndex (ringOf n) n a)
        ++ b :: zs.filter (fun m => sendToChannelIndex (ringOf n) n m
            == sendToChannelIndex (ringOf n) n a)) := by
  have hbkey : b.key ≠ "" := by rw [hkey]; exact hne
  have hsame : sendToChannelIndex (ringOf n) n b
      = sendToChannelIndex (ringOf n) n a := by
    rw [sendToChannelIndex_keyed n b hn h32 hbkey,
      sendToChannelIndex_keyed n a hn h32 hne, hkey]
  refine ⟨hsame, ?_⟩
  rw [workerRun_no_panic deal _ _ (fun m _ => hdeal m), dispatchAll_apply]
  have hpa : (sendToChannelIndex (ringOf n) n a
      == sendToChannelIndex (ringOf n) n a) = true := by simp
  have hpb : (sendToChannelIndex (ringOf n) n b
      == sendToChannelIndex (ringOf n) n a) = true := by simp [hsame]
  rw [List.filter_append, List.filter_cons, hpa, if_pos rfl,
    List.filter_append, List.filter_cons, hpb, if_pos rfl]

/-- C2 witness: msgA and msgB share the key and land on the same worker of
four; an always-succeeding handler on that worker processes msgA then msgB
in dispatch order. -/
theorem c2_same_key_fifo_witness :
    msgB.key = msgA.key ∧ msgA.key ≠ "" ∧
    sendToChannelIndex (ringOf 4) 4 msgB
      = sendToChannelIndex (ringOf 4) 4 msgA ∧
    (workerRun (fun _ => DealResult.ok) (sendToChannelIndex (ringOf 4) 4 msgA)
        (dispatchAll (ringOf 4) 4 [msgA, msgB]
          (sendToChannelIndex (ringOf 4) 4 msgA))).1 = [msgA, msgB] := by
  have h := c2_same_key_fifo 4 [] [] [] msgA msgB (fun _ => DealResult.ok)
    (by norm_num) (by norm_num) (by decide) (by decide)
    (fun _ h => DealResult.noConfusion h)
  refine ⟨by decide, by decide, h.1, ?_⟩
  have h2 := h.2
  simpa using h2

/-- C4 counterexample: a handler that faults on the first message makes the
worker invoke it, log the recovered fault and then stop: the second queued
message is never processed, refuting that the worker continues its loop
after a fault. -/
theorem c4_counterexample :
    (workerRun (fun _ => DealResult.panicked) 0 [msgA, msgC]).1 = [msgA] ∧
    msgC ∉ (workerRun (fun _ => DealResult.panicked) 0 [msgA, msgC]).1 ∧
    (workerRun (fun _ => DealResult.panicked) 0 [msgA, msgC]).2
      = [WorkerLog.dealException 0] := by
  exact ⟨rfl, by decide, rfl⟩

/-- C4 (amended): a handler fault is caught by the deferred recover at the
worker goroutine boundary and logged, and the current message is dropped
without retry; but the boundary sits outside the receive loop, so the
recovery ends the goroutine: the worker processes exactly the messages up
to and including the faulting one and none after it. -/
theorem c4_panic_kills_worker_amended (deal : KafkaMessage → DealResult)
    (index : Int) (pre : List KafkaMessage) (m : KafkaMessage)
    (rest : List KafkaMessage)
    (hpre : ∀ x ∈ pre, deal x ≠ DealResult.panicked)
    (hm : deal m = DealResult.panicked) :
    workerRun deal index (pre ++ m :: rest)
      = (pre ++ [m], [WorkerLog.dealException index]) :=
  workerRun_panic_stops deal index pre m rest hpre hm

/-- C4 witness: a handler faulting exactly on msgA processes msgC, then
msgA, logs the fault, and never reaches msgB. -/
theorem c4_panic_kills_worker_amended_witness :
    workerRun (fun m => if m = msgA then DealResult.panicked else DealResult.ok)
        0 ([msgC] ++ msgA :: [msgB])
      = ([msgC] ++ [msgA], [WorkerLog.dealException 0]) :=
  c4_panic_kills_worker_amended
    (fun m => if m = msgA then DealResult.panicked else DealResult.ok)
    0 [msgC] msgA [msgB]
    (fun x hx => by rw [List.mem_singleton] at hx; subst hx; decide)
    (by decide)

/-- C9 counterexample: a handler returning a failure outcome on the single
delivered message produces no log line at all for that failure (the only
line the worker emits is the queue-close line): DealMessage is called with
its error result discarded, so the claimed logging of the failure outcome
does not happen. -/
theorem c9_counterexample :
    (workerRun (fun _ => DealResult.fail) 0 [msgA]).1 = [msgA] ∧
    (workerRun (fun _ => DealResult.fail) 0 [msgA]).2
      = [WorkerLog.chanClosed 0] :=
  ⟨rfl, rfl⟩

/-- C9 (amended): every message delivered to a worker has its handler
invoked exactly once, in queue order, and a returned failure outcome is
silently discarded: the message counts as delivered, is not retried, and
nothing is logged about the failure (stated for handlers that do not
fault; a fault is the separately handled panic path). -/
theorem c9_error_discarded_amended (deal : KafkaMessage → DealResult)
    (index : Int) (q : List KafkaMessage)
    (h : ∀ m ∈ q, deal m ≠ DealResult.panicked) :
    workerRun deal index q = (q, [WorkerLog.chanClosed index]) :=
  workerRun_no_panic deal index q h

/-- C9 witness: an always-failing handler over a two-message queue is
invoked once per message, in order, and emits only the queue-close log. -/
theorem c9_error_discarded_amended_witness :
    workerRun (fun _ => DealResult.fail) 0 [msgA, msgC]
      = ([msgA, msgC], [WorkerLog.chanClosed 0]) :=
  c9_error_discarded_amended (fun _ => DealResult.fail) 0 [msgA, msgC]
    (fun _ _ h => DealResult.noConfusion h)

end Databusc
